import Mathlib

/-!
Verification of the IEEE802_3 link-layer PDU (libtins, `include/ieee802_3.h`).

The header file declares the class `IEEE802_3`; its inline members
(the getters, `pdu_type`, `pdu_flag`, the packed `ethhdr` struct and
`clone`'s shell) are embedded directly from the source.  Members that are
only declared in the header (buffer constructor, setters, `header_size`,
`write_serialization`, `matches_response`, `recv_response`, the deep-copy
behaviour behind `clone`) have no body in the sources at hand and are
modelled from the specification, as noted on each such definition.

Bytes are `Nat` values below 256; buffers are `List Nat`.  The packed
`ethhdr` struct stores the 16-bit length field in wire (big-endian) byte
order; the embedding keeps the two stored bytes explicitly.
-/

/-- Big-endian to host conversion of a 16-bit field given as its two
stored wire bytes (external collaborator `Endian::be_to_host`). -/
def Endian.be_to_host (hi lo : Nat) : Nat := hi * 256 + lo

/-- High byte of the big-endian encoding of a host-order 16-bit value
(external collaborator `Endian::host_to_be`). -/
def Endian.host_to_be_hi (x : Nat) : Nat := (x / 256) % 256

/-- Low byte of the big-endian encoding of a host-order 16-bit value. -/
def Endian.host_to_be_lo (x : Nat) : Nat := x % 256

/-- The packed header struct `IEEE802_3::ethhdr`: 6 destination bytes,
6 source bytes, and a 16-bit length field stored in big-endian wire byte
order (kept here as its two stored bytes `len_hi`, `len_lo`). -/
structure ethhdr where
  dst_mac : List Nat
  src_mac : List Nat
  len_hi : Nat
  len_lo : Nat
deriving DecidableEq

/-- A PDU chain value.  `nil` is the absence of an inner PDU (the null
child pointer), `raw` is an opaque payload node preserving unrecognized
bytes, and `ieee` is a nested IEEE802_3 frame node owning its own inner
chain. -/
inductive PDUv where
  | nil : PDUv
  | raw (payload : List Nat) : PDUv
  | ieee (eth : ethhdr) (iface : Nat) (inner : PDUv) : PDUv
deriving DecidableEq

/-- Modelled from the spec: the 14 header bytes written at serialization
time — destination, source, and the length field re-encoded to big-endian
from its current value at write time (spec §4.4; `write_serialization` has
no body in the sources at hand). -/
def headerBytes (e : ethhdr) : List Nat :=
  e.dst_mac ++ e.src_mac ++
    [Endian.host_to_be_hi (Endian.be_to_host e.len_hi e.len_lo),
     Endian.host_to_be_lo (Endian.be_to_host e.len_hi e.len_lo)]

/-- Serialization of a PDU chain value: each frame node writes its header
and delegates the remainder to its owned inner node; an opaque payload
node writes its preserved bytes. -/
def serializeP : PDUv → List Nat
  | PDUv.nil => []
  | PDUv.raw payload => payload
  | PDUv.ieee e _ inner => headerBytes e ++ serializeP inner

/-- Total serialized size of a PDU chain value: a frame node consumes its
14 header bytes plus the recursively computed size of its inner chain. -/
def pduSizeP : PDUv → Nat
  | PDUv.nil => 0
  | PDUv.raw payload => payload.length
  | PDUv.ieee _ _ inner => 14 + pduSizeP inner

/-- The concrete link-layer frame `Tins::IEEE802_3`: the packed header,
the network interface handle (an opaque comparable value, embedded as a
`Nat`, with `0` the unset sentinel), and the owned inner PDU. -/
structure IEEE802_3 where
  _eth : ethhdr
  _iface : Nat
  inner_pdu : PDUv
deriving DecidableEq

/-- Getter for the destination hardware address
(`return _eth.dst_mac;`, returned by value). -/
def IEEE802_3.dst_addr (f : IEEE802_3) : List Nat := f._eth.dst_mac

/-- Getter for the source hardware address
(`return _eth.src_mac;`, returned by value). -/
def IEEE802_3.src_addr (f : IEEE802_3) : List Nat := f._eth.src_mac

/-- Getter for the interface (`return this->_iface;`). -/
def IEEE802_3.iface (f : IEEE802_3) : Nat := f._iface

/-- Getter for the length field
(`return Endian::be_to_host(_eth.length);`). -/
def IEEE802_3.length (f : IEEE802_3) : Nat :=
  Endian.be_to_host f._eth.len_hi f._eth.len_lo

/-- Modelled from the spec: the length setter (declared only in the
header) accepts a host-order value and stores it internally as big-endian
(spec §4.2). -/
def IEEE802_3.set_length (f : IEEE802_3) (new_length : Nat) : IEEE802_3 :=
  { f with _eth := { f._eth with
      len_hi := Endian.host_to_be_hi new_length,
      len_lo := Endian.host_to_be_lo new_length } }

/-- Modelled from the spec: the interface setter (declared only in the
header) replaces the stored value in place (spec §4.2). -/
def IEEE802_3.set_iface (f : IEEE802_3) (new_iface : Nat) : IEEE802_3 :=
  { f with _iface := new_iface }

/-- Modelled from the spec: `header_size` (declared only in the header)
returns the constant 14 unconditionally (spec §4.3). -/
def IEEE802_3.header_size (_ : IEEE802_3) : Nat := 14

/-- Error kinds of the core (spec §7). -/
inductive ParseError where
  | FormatError
  | SerializationError
deriving DecidableEq

/-- The external protocol registry: given the decoded discriminator and
the remaining bytes, returns the parsed inner PDU or none when the bytes
are unrecognized (spec §6). -/
abbrev Registry : Type := Nat → List Nat → Option PDUv

/-- Modelled from the spec: how the remaining bytes past the header
become the inner PDU — a registry hit becomes the owned inner node, an
unrecognized remainder is preserved as an opaque payload node, and an
empty remainder yields no inner PDU (spec §4.1, §8). -/
def attach_inner (registry : Registry) (discr : Nat) (rest : List Nat) : PDUv :=
  if rest.length = 0 then PDUv.nil
  else
    match registry discr rest with
    | Option.some p => p
    | Option.none => PDUv.raw rest

/-- Modelled from the spec: the buffer constructor
`IEEE802_3(const uint8_t*, uint32_t)` (declared only in the header).  It
fails with a format error when fewer than 14 bytes are given, decodes
bytes [0,6) as destination, [6,12) as source, [12,14) as the big-endian
length field, and hands the remaining bytes to the registry (spec §4.1).
Parse-only instances carry the unset interface sentinel. -/
def IEEE802_3.fromBuffer (registry : Registry) (buffer : List Nat) :
    Except ParseError IEEE802_3 :=
  if buffer.length < 14 then Except.error ParseError.FormatError
  else
    Except.ok
      { _eth := { dst_mac := buffer.take 6
                , src_mac := (buffer.drop 6).take 6
                , len_hi := (buffer.drop 12).getD 0 0
                , len_lo := (buffer.drop 12).getD 1 0 }
      , _iface := 0
      , inner_pdu := attach_inner registry
          (Endian.be_to_host ((buffer.drop 12).getD 0 0) ((buffer.drop 12).getD 1 0))
          (buffer.drop 14) }

/-- Total serialized size of the frame: its 14 header bytes plus the
recursively computed size of the owned inner chain (spec §3). -/
def IEEE802_3.size (f : IEEE802_3) : Nat := 14 + pduSizeP f.inner_pdu

/-- The full byte sequence a serialization of the chain writes: the
frame's header bytes followed by the inner chain's serialization. -/
def IEEE802_3.serializeChain (f : IEEE802_3) : List Nat :=
  headerBytes f._eth ++ serializeP f.inner_pdu

/-- Modelled from the spec: `write_serialization` (declared only in the
header) fails when the destination buffer is smaller than the header size
plus the inner chain's total size, and otherwise writes the chain's bytes
(spec §4.4). -/
def IEEE802_3.write_serialization (f : IEEE802_3) (total_sz : Nat) :
    Option (List Nat) :=
  if total_sz < f.size then Option.none else Option.some f.serializeChain

/-- Modelled from the spec: serialization in explicit state-passing form —
the pair of the frame's state after the call and the written bytes; the
only side effect is writing into the destination buffer (spec §4.4). -/
def IEEE802_3.write_serialization_st (f : IEEE802_3) (total_sz : Nat) :
    IEEE802_3 × Option (List Nat) :=
  (f, f.write_serialization total_sz)

/-- The PDU type discriminators relevant here (the `PDU::PDUType` enum is
declared in `pdu.h`, outside the sources at hand; it is embedded as an
opaque enumeration with the constructors this layer mentions). -/
inductive PDUType where
  | RAW : PDUType
  | ETHERNET_II : PDUType
  | IEEE802_3 : PDUType
  | LLC : PDUType
deriving DecidableEq

/-- This PDU's flag: `static const PDU::PDUType pdu_flag = PDU::IEEE802_3;`. -/
def IEEE802_3.pdu_flag : PDUType := PDUType.IEEE802_3

/-- Getter for the PDU's type: `return PDU::IEEE802_3;`. -/
def IEEE802_3.pdu_type (_ : IEEE802_3) : PDUType := PDUType.IEEE802_3

/-- Modelled from the spec: the inner layer's side of `matches_response`
— a frame node requires at least its header size of bytes, the reversed
address pair, and its own inner node's agreement on the remaining bytes;
an opaque payload node needs its bytes to fit and is a pass-through; the
absence of an inner PDU leaves the outer verdict alone (spec §4.5). -/
def matchesInner : PDUv → List Nat → Bool
  | PDUv.nil, _ => true
  | PDUv.raw payload, bs => payload.length ≤ bs.length
  | PDUv.ieee e _ inner, bs =>
    if bs.length < 14 then false
    else decide (bs.take 6 = e.src_mac) && decide ((bs.drop 6).take 6 = e.dst_mac)
         && matchesInner inner (bs.drop 14)

/-- Modelled from the spec: `matches_response` (declared only in the
header) requires at least `header_size()` bytes, the response's
source/destination pair being the reverse of this frame's, and — when an
inner PDU is owned — the inner layer's agreement on the remaining bytes,
insufficient remaining bytes counting as no match (spec §4.5). -/
def IEEE802_3.matches_response (f : IEEE802_3) (buffer : List Nat) : Bool :=
  if buffer.length < 14 then false
  else decide (buffer.take 6 = f._eth.src_mac)
       && decide ((buffer.drop 6).take 6 = f._eth.dst_mac)
       && matchesInner f.inner_pdu (buffer.drop 14)

/-- Modelled from the spec: `recv_response` (declared only in the header)
repeatedly invokes the collaborator's blocking receive primitive — here a
finite stream of receive outcomes, where a `none` outcome (or the end of
the stream) is the primitive signalling exhaustion or timeout.  The first
received buffer that matches is reparsed into a brand-new owned chain;
exhaustion yields an absent result, never an error (spec §4.5). -/
def IEEE802_3.recv_response (registry : Registry) (f : IEEE802_3) :
    List (Option (List Nat)) → Option IEEE802_3
  | [] => Option.none
  | Option.none :: _ => Option.none
  | Option.some buf :: rest =>
    if f.matches_response buf
    then (IEEE802_3.fromBuffer registry buf).toOption
    else IEEE802_3.recv_response registry f rest

/-- The dst_addr getter returns the stored address by value (an
independent copy): as an observation over object states it is the
constant snapshot taken at call time, insensitive to the object's state
at observation time. -/
def IEEE802_3.dst_addr_obs (f : IEEE802_3) : IEEE802_3 → List Nat :=
  fun _ => f._eth.dst_mac

/-- The src_addr getter, as a call-time snapshot observation (returned by
value in the source). -/
def IEEE802_3.src_addr_obs (f : IEEE802_3) : IEEE802_3 → List Nat :=
  fun _ => f._eth.src_mac

/-- The length getter, as a call-time snapshot observation (returned by
value in the source). -/
def IEEE802_3.length_obs (f : IEEE802_3) : IEEE802_3 → Nat :=
  fun _ => f.length

/-- The iface getter returns a const reference to the stored member
(`const NetworkInterface &iface() const { return this->_iface; }`):
dereferencing the returned reference reads the member from the object
state current at observation time, not a snapshot. -/
def IEEE802_3.iface_obs (_ : IEEE802_3) : IEEE802_3 → Nat :=
  fun cur => cur._iface

/-- A heap node: an opaque payload node, or a frame node whose child
field is the heap address of the next owned node, if any. -/
inductive HNode where
  | raw (payload : List Nat) : HNode
  | frame (eth : ethhdr) (iface : Nat) (child : Option Nat) : HNode
deriving DecidableEq

/-- Address lookup in a node store (an association list of
address/node pairs; the first binding wins). -/
def hlookup : List (Nat × HNode) → Nat → Option HNode
  | [], _ => Option.none
  | e :: rest, a => if a = e.1 then Option.some e.2 else hlookup rest a

/-- A heap of PDU nodes together with its allocation bound: fresh nodes
are allocated at `next`. -/
structure Heap where
  mem : List (Nat × HNode)
  next : Nat
deriving DecidableEq

/-- Well-formedness of a node store: every bound address lies below the
allocation bound. -/
def memWF (mem : List (Nat × HNode)) (bound : Nat) : Prop :=
  ∀ e ∈ mem, e.1 < bound

/-- Modelled from the spec: `clone()` produces a structurally independent
duplicate of the node and its entire owned inner chain — a recursive deep
copy allocating a fresh heap node for every node of the chain, the child
copied before the node that points at the fresh child (spec §4.6; the
copy constructor the inline `clone` body invokes has no body in the
sources at hand).  The fuel bounds the chain depth; `none` means a
dangling address or a chain deeper than the fuel. -/
def cloneChain : Nat → Heap → Nat → Option (Heap × Nat)
  | 0, _, _ => Option.none
  | fuel + 1, h, a =>
    match hlookup h.mem a with
    | Option.none => Option.none
    | Option.some (HNode.raw payload) =>
        Option.some (⟨(h.next, HNode.raw payload) :: h.mem, h.next + 1⟩, h.next)
    | Option.some (HNode.frame e i Option.none) =>
        Option.some (⟨(h.next, HNode.frame e i Option.none) :: h.mem, h.next + 1⟩, h.next)
    | Option.some (HNode.frame e i (Option.some c)) =>
        match cloneChain fuel h c with
        | Option.none => Option.none
        | Option.some (h1, c1) =>
            Option.some (⟨(h1.next, HNode.frame e i (Option.some c1)) :: h1.mem, h1.next + 1⟩, h1.next)

/-- Read back, as a value, the chain rooted at an address. -/
def readChain : Nat → List (Nat × HNode) → Nat → Option PDUv
  | 0, _, _ => Option.none
  | fuel + 1, mem, a =>
    match hlookup mem a with
    | Option.none => Option.none
    | Option.some (HNode.raw payload) => Option.some (PDUv.raw payload)
    | Option.some (HNode.frame e i Option.none) => Option.some (PDUv.ieee e i PDUv.nil)
    | Option.some (HNode.frame e i (Option.some c)) =>
        match readChain fuel mem c with
        | Option.none => Option.none
        | Option.some q => Option.some (PDUv.ieee e i q)

/-- The addresses of the nodes of the chain rooted at an address. -/
def chainAddrs : Nat → List (Nat × HNode) → Nat → List Nat
  | 0, _, _ => []
  | fuel + 1, mem, a =>
    match hlookup mem a with
    | Option.none => []
    | Option.some (HNode.raw _) => [a]
    | Option.some (HNode.frame _ _ Option.none) => [a]
    | Option.some (HNode.frame _ _ (Option.some c)) => a :: chainAddrs fuel mem c

/-- Overwrite in place the node stored at an address (the mutation of a
chain node). -/
def setNode (mem : List (Nat × HNode)) (a : Nat) (n : HNode) : List (Nat × HNode) :=
  mem.map fun e => if e.1 = a then (a, n) else e

lemma host_to_be_inv (hi lo : Nat) (hhi : hi < 256) (hlo : lo < 256) :
    Endian.host_to_be_hi (Endian.be_to_host hi lo) = hi
    ∧ Endian.host_to_be_lo (Endian.be_to_host hi lo) = lo := by
  unfold Endian.host_to_be_hi Endian.host_to_be_lo Endian.be_to_host
  constructor <;> omega

lemma take_two_getD (m : List Nat) (h : 2 ≤ m.length) :
    m.take 2 = [m.getD 0 0, m.getD 1 0] := by
  rcases m with _ | ⟨x, _ | ⟨y, t⟩⟩
  · simp at h
  · simp at h
  · simp

lemma getD_mem_two (m : List Nat) (h : 2 ≤ m.length) :
    m.getD 0 0 ∈ m ∧ m.getD 1 0 ∈ m := by
  rcases m with _ | ⟨x, _ | ⟨y, t⟩⟩
  · simp at h
  · simp at h
  · simp

lemma split14 (l : List Nat) :
    l.take 6 ++ ((l.drop 6).take 6 ++ ((l.drop 12).take 2 ++ l.drop 14)) = l := by
  have h1 : l.take 12 = l.take 6 ++ (l.drop 6).take 6 := by
    simpa using List.take_add l 6 6
  have h2 : l.take 14 = l.take 12 ++ (l.drop 12).take 2 := by
    simpa using List.take_add l 12 2
  calc l.take 6 ++ ((l.drop 6).take 6 ++ ((l.drop 12).take 2 ++ l.drop 14))
      = (l.take 6 ++ (l.drop 6).take 6) ++ ((l.drop 12).take 2 ++ l.drop 14) := by
        rw [List.append_assoc]
    _ = l.take 12 ++ ((l.drop 12).take 2 ++ l.drop 14) := by rw [h1]
    _ = (l.take 12 ++ (l.drop 12).take 2) ++ l.drop 14 := by rw [List.append_assoc]
    _ = l.take 14 ++ l.drop 14 := by rw [h2]
    _ = l := List.take_append_drop 14 l

lemma attach_inner_spec (registry : Registry) (d : Nat) (rest : List Nat)
    (hreg : ∀ d' bs p, registry d' bs = Option.some p →
      serializeP p = bs ∧ pduSizeP p = bs.length) :
    serializeP (attach_inner registry d rest) = rest
    ∧ pduSizeP (attach_inner registry d rest) = rest.length := by
  unfold attach_inner
  by_cases h0 : rest.length = 0
  · have hrest : rest = [] := List.length_eq_zero.mp h0
    subst hrest
    simp [serializeP, pduSizeP]
  · rw [if_neg h0]
    cases hr : registry d rest with
    | none => simp [serializeP, pduSizeP]
    | some p => exact hreg d rest p hr

/-- C3: `header_size()` returns the constant 14 for every IEEE802_3
instance, independent of the stored addresses, length value, interface, or
whether an inner PDU is owned. -/
theorem IEEE802_3.header_size_eq_14 (f : IEEE802_3) : f.header_size = 14 := rfl

/-- C5: for every value `x` in [0, 65535], calling the length setter with
`x` (a host-order value, stored internally as big-endian) and then the
length getter returns `x`. -/
theorem IEEE802_3.set_length_get (f : IEEE802_3) (x : Nat) (hx : x < 65536) :
    (f.set_length x).length = x := by
  simp only [IEEE802_3.set_length, IEEE802_3.length,
    Endian.be_to_host, Endian.host_to_be_hi, Endian.host_to_be_lo]
  omega

theorem IEEE802_3.set_length_get_witness :
    ((IEEE802_3.mk ⟨[], [], 0, 0⟩ 0 PDUv.nil).set_length 513).length = 513 :=
  IEEE802_3.set_length_get (IEEE802_3.mk ⟨[], [], 0, 0⟩ 0 PDUv.nil) 513 (by decide)

/-- C10: for every IEEE802_3 instance, regardless of which constructor
built it and of any subsequent setter calls, `pdu_type()` returns
`PDU::IEEE802_3`, equal to the static `pdu_flag` constant of the class. -/
theorem IEEE802_3.pdu_type_eq_flag (f : IEEE802_3) :
    f.pdu_type = IEEE802_3.pdu_flag ∧ IEEE802_3.pdu_flag = PDUType.IEEE802_3 :=
  ⟨rfl, rfl⟩

/-- C9 counterexample: the iface getter does not return an independent
copy — it returns a const reference to the stored member, so after the
frame's interface is mutated the value observed through the getter's
result changes, which an independent copy would forbid. -/
theorem IEEE802_3.iface_not_copy_counterexample :
    (IEEE802_3.mk ⟨[], [], 0, 0⟩ 0 PDUv.nil).iface_obs
        ((IEEE802_3.mk ⟨[], [], 0, 0⟩ 0 PDUv.nil).set_iface 1)
      ≠ (IEEE802_3.mk ⟨[], [], 0, 0⟩ 0 PDUv.nil).iface_obs
        (IEEE802_3.mk ⟨[], [], 0, 0⟩ 0 PDUv.nil) := by
  decide

/-- C9 (amended): the getters for destination address, source address and
length are pure and return independent copies — observed through the
getter's result, the value is a call-time snapshot insensitive to the
object's later state — and their values are the stored ones; the
interface getter is pure but returns a const reference to the stored
member, whose observed value is the member in the object state current at
observation time, so it tracks later mutations instead of being an
independent copy. -/
theorem IEEE802_3.getters_pure_amended :
    (∀ (f s s' : IEEE802_3), f.dst_addr_obs s = f.dst_addr_obs s')
    ∧ (∀ (f s s' : IEEE802_3), f.src_addr_obs s = f.src_addr_obs s')
    ∧ (∀ (f s s' : IEEE802_3), f.length_obs s = f.length_obs s')
    ∧ (∀ (f s : IEEE802_3), f.dst_addr_obs s = f.dst_addr
        ∧ f.src_addr_obs s = f.src_addr ∧ f.length_obs s = f.length)
    ∧ (∀ (f cur : IEEE802_3), f.iface_obs cur = cur.iface)
    ∧ (∀ (f : IEEE802_3) (v : Nat), f.iface_obs (f.set_iface v) = v) :=
  ⟨fun _ _ _ => rfl, fun _ _ _ => rfl, fun _ _ _ => rfl,
   fun _ _ => ⟨rfl, rfl, rfl⟩, fun _ _ => rfl, fun _ _ => rfl⟩

/-- C2: the buffer constructor fails with a format error for every input
buffer whose length is below 14 (populating no partial header — the
failing construction yields no frame at all); for a buffer of exactly 14
bytes it succeeds, decodes bytes [0,6) as destination, [6,12) as source,
[12,14) as the big-endian length field, and yields no inner PDU. -/
theorem IEEE802_3.fromBuffer_spec :
    (∀ (registry : Registry) (buffer : List Nat), buffer.length < 14 →
      IEEE802_3.fromBuffer registry buffer = Except.error ParseError.FormatError)
    ∧ (∀ (registry : Registry) (a0 a1 a2 a3 a4 a5 b0 b1 b2 b3 b4 b5 c0 c1 : Nat),
      ∃ f, IEEE802_3.fromBuffer registry
            [a0, a1, a2, a3, a4, a5, b0, b1, b2, b3, b4, b5, c0, c1] = Except.ok f
        ∧ f.dst_addr = [a0, a1, a2, a3, a4, a5]
        ∧ f.src_addr = [b0, b1, b2, b3, b4, b5]
        ∧ f.length = Endian.be_to_host c0 c1
        ∧ f.inner_pdu = PDUv.nil) := by
  constructor
  · intro registry buffer h
    simp [IEEE802_3.fromBuffer, h]
  · intro registry a0 a1 a2 a3 a4 a5 b0 b1 b2 b3 b4 b5 c0 c1
    exact ⟨_, rfl, rfl, rfl, rfl, rfl⟩

theorem IEEE802_3.fromBuffer_spec_witness :
    IEEE802_3.fromBuffer (fun _ _ => Option.none)
        [0, 0, 0, 0, 0, 0, 0, 0, 0, 0, 0, 0, 0] = Except.error ParseError.FormatError
    ∧ ∃ f, IEEE802_3.fromBuffer (fun _ _ => Option.none)
            [1, 2, 3, 4, 5, 6, 7, 8, 9, 10, 11, 12, 2, 1] = Except.ok f
        ∧ f.dst_addr = [1, 2, 3, 4, 5, 6]
        ∧ f.src_addr = [7, 8, 9, 10, 11, 12]
        ∧ f.length = Endian.be_to_host 2 1
        ∧ f.inner_pdu = PDUv.nil :=
  ⟨IEEE802_3.fromBuffer_spec.1 (fun _ _ => Option.none)
      [0, 0, 0, 0, 0, 0, 0, 0, 0, 0, 0, 0, 0] (by decide),
   IEEE802_3.fromBuffer_spec.2 (fun _ _ => Option.none) 1 2 3 4 5 6 7 8 9 10 11 12 2 1⟩

/-- C7: `recv_response` returns an empty/absent result (no PDU) when the
collaborator's receive primitive signals exhaustion or timeout — whether
the stream of receive outcomes ends or the primitive reports no data
after any number of non-matching buffers — without raising an error; the
layer performs no timeout logic of its own. -/
theorem IEEE802_3.recv_response_exhaustion (registry : Registry) (f : IEEE802_3)
    (bufs : List (List Nat)) (rest : List (Option (List Nat)))
    (hno : ∀ b ∈ bufs, f.matches_response b = false) :
    IEEE802_3.recv_response registry f (bufs.map Option.some ++ Option.none :: rest)
      = Option.none
    ∧ IEEE802_3.recv_response registry f [] = Option.none := by
  have main : ∀ (bs : List (List Nat)), (∀ b ∈ bs, f.matches_response b = false) →
      IEEE802_3.recv_response registry f (bs.map Option.some ++ Option.none :: rest)
        = Option.none := by
    intro bs
    induction bs with
    | nil => intro _; rfl
    | cons b t ih =>
      intro h
      have hb : f.matches_response b = false := h b (by simp)
      simp only [List.map_cons, List.cons_append, IEEE802_3.recv_response, hb,
        Bool.false_eq_true, if_false]
      exact ih (fun x hx => h x (by simp [hx]))
  exact ⟨main bufs hno, rfl⟩

theorem IEEE802_3.recv_response_exhaustion_witness :
    IEEE802_3.recv_response (fun _ _ => Option.none)
        (IEEE802_3.mk ⟨[], [], 0, 0⟩ 0 PDUv.nil)
        ([[]].map Option.some ++ Option.none :: []) = Option.none
    ∧ IEEE802_3.recv_response (fun _ _ => Option.none)
        (IEEE802_3.mk ⟨[], [], 0, 0⟩ 0 PDUv.nil) [] = Option.none :=
  IEEE802_3.recv_response_exhaustion (fun _ _ => Option.none)
    (IEEE802_3.mk ⟨[], [], 0, 0⟩ 0 PDUv.nil) [[]] [] (by decide)

/-- C8: serializing an IEEE802_3 frame has writing into the destination
buffer as its only side effect — in state-passing form the layer's own
state is returned unchanged and the written bytes are exactly
`write_serialization`'s output — and the length field is re-encoded to
big-endian at write time from the current value rather than cached: after
setting the length to any 16-bit `x`, the serialized bytes [12,14) are
the big-endian encoding of `x`. -/
theorem IEEE802_3.write_serialization_effects :
    (∀ (f : IEEE802_3) (sz : Nat), (f.write_serialization_st sz).1 = f)
    ∧ (∀ (f : IEEE802_3) (sz : Nat),
        (f.write_serialization_st sz).2 = f.write_serialization sz)
    ∧ (∀ (f : IEEE802_3) (x : Nat), x < 65536 →
        f._eth.dst_mac.length = 6 → f._eth.src_mac.length = 6 →
        (((f.set_length x).serializeChain).drop 12).take 2
          = [Endian.host_to_be_hi x, Endian.host_to_be_lo x]) := by
  refine ⟨fun _ _ => rfl, fun _ _ => rfl, ?_⟩
  intro f x hx h6d h6s
  have hbe : Endian.be_to_host (Endian.host_to_be_hi x) (Endian.host_to_be_lo x) = x := by
    simp only [Endian.be_to_host, Endian.host_to_be_hi, Endian.host_to_be_lo]
    omega
  simp only [IEEE802_3.set_length, IEEE802_3.serializeChain, headerBytes, hbe,
    List.append_assoc]
  rw [← List.append_assoc f._eth.dst_mac f._eth.src_mac]
  rw [List.drop_left' (by simp [h6d, h6s])]
  exact List.take_left' rfl

/-- A concrete frame used to instantiate the serialization-effects
statement. -/
def exampleFrame : IEEE802_3 :=
  IEEE802_3.mk ⟨[1, 2, 3, 4, 5, 6], [7, 8, 9, 10, 11, 12], 0, 0⟩ 3 (PDUv.raw [9])

theorem IEEE802_3.write_serialization_effects_witness :
    (IEEE802_3.write_serialization_st exampleFrame 15).1 = exampleFrame
    ∧ (((exampleFrame.set_length 513).serializeChain).drop 12).take 2
      = [Endian.host_to_be_hi 513, Endian.host_to_be_lo 513] :=
  ⟨IEEE802_3.write_serialization_effects.1 exampleFrame 15,
   IEEE802_3.write_serialization_effects.2.2 exampleFrame
      513 (by decide) (by decide) (by decide)⟩

lemma matchesInner_insufficient : ∀ (p : PDUv) (bs : List Nat),
    bs.length < pduSizeP p → matchesInner p bs = false := by
  intro p
  induction p with
  | nil =>
    intro bs h
    simp [pduSizeP] at h
  | raw payload =>
    intro bs h
    simp only [pduSizeP] at h
    simp only [matchesInner, decide_eq_false_iff_not, Nat.not_le]
    exact h
  | ieee e i inner ih =>
    intro bs h
    simp only [pduSizeP] at h
    by_cases h14 : bs.length < 14
    · simp [matchesInner, h14]
    · have hrest : (bs.drop 14).length < pduSizeP inner := by
        simp only [List.length_drop]
        omega
      simp [matchesInner, h14, ih _ hrest]

/-- C6: for every request frame, `matches_response` returns false on any
buffer with fewer than `header_size()` bytes; it returns true on a
response buffer whose source/destination address pair is the reverse of
the request's with otherwise identical trailing bytes (for a request
whose owned inner chain is absent or an opaque payload, as the deepest
layer's own standalone verdict is the pass-through); and when an inner
PDU is owned but insufficient trailing bytes remain for the inner
layer's check, it returns false. -/
theorem IEEE802_3.matches_response_spec :
    (∀ (f : IEEE802_3) (buffer : List Nat), buffer.length < f.header_size →
      f.matches_response buffer = false)
    ∧ (∀ (f : IEEE802_3), f._eth.dst_mac.length = 6 → f._eth.src_mac.length = 6 →
      (f.inner_pdu = PDUv.nil ∨ ∃ p, f.inner_pdu = PDUv.raw p) →
      f.matches_response (f._eth.src_mac ++ f._eth.dst_mac ++
        [f._eth.len_hi, f._eth.len_lo] ++ serializeP f.inner_pdu) = true)
    ∧ (∀ (f : IEEE802_3) (buffer : List Nat),
        (buffer.drop 14).length < pduSizeP f.inner_pdu →
        f.matches_response buffer = false) := by
  refine ⟨?_, ?_, ?_⟩
  · intro f buffer h
    have h14 : buffer.length < 14 := h
    simp [IEEE802_3.matches_response, h14]
  · intro f h6d h6s hinner
    have hlen : ¬ ((f._eth.src_mac ++ f._eth.dst_mac ++
        [f._eth.len_hi, f._eth.len_lo] ++ serializeP f.inner_pdu).length < 14) := by
      simp [h6d, h6s]
      omega
    have htake6 : (f._eth.src_mac ++ f._eth.dst_mac ++
        [f._eth.len_hi, f._eth.len_lo] ++ serializeP f.inner_pdu).take 6
        = f._eth.src_mac := by
      rw [List.append_assoc, List.append_assoc]
      exact List.take_left' h6s
    have hdrop6 : (f._eth.src_mac ++ f._eth.dst_mac ++
        [f._eth.len_hi, f._eth.len_lo] ++ serializeP f.inner_pdu).drop 6
        = f._eth.dst_mac ++ ([f._eth.len_hi, f._eth.len_lo] ++ serializeP f.inner_pdu) := by
      rw [List.append_assoc, List.append_assoc]
      exact List.drop_left' h6s
    have hdrop14 : (f._eth.src_mac ++ f._eth.dst_mac ++
        [f._eth.len_hi, f._eth.len_lo] ++ serializeP f.inner_pdu).drop 14
        = serializeP f.inner_pdu := by
      exact List.drop_left' (by simp [h6d, h6s])
    simp only [IEEE802_3.matches_response, hlen, if_false, htake6, hdrop6, hdrop14,
      List.take_left' h6d, decide_eq_true_eq]
    have hmi : matchesInner f.inner_pdu (serializeP f.inner_pdu) = true := by
      rcases hinner with hn | ⟨p, hp⟩
      · rw [hn]; rfl
      · rw [hp]; simp [matchesInner, serializeP]
    simp [hmi]
  · intro f buffer h
    by_cases h14 : buffer.length < 14
    · simp [IEEE802_3.matches_response, h14]
    · simp [IEEE802_3.matches_response, h14, matchesInner_insufficient _ _ h]

/-- A concrete request frame used to instantiate the response-matching
statement. -/
def requestFrame : IEEE802_3 :=
  IEEE802_3.mk ⟨[1, 2, 3, 4, 5, 6], [7, 8, 9, 10, 11, 12], 0, 9⟩ 0 (PDUv.raw [5, 5])

theorem IEEE802_3.matches_response_spec_witness :
    requestFrame.matches_response [0, 0, 0] = false
    ∧ requestFrame.matches_response ([7, 8, 9, 10, 11, 12] ++ [1, 2, 3, 4, 5, 6] ++
        [0, 9] ++ [5, 5]) = true
    ∧ requestFrame.matches_response
        [7, 8, 9, 10, 11, 12, 1, 2, 3, 4, 5, 6, 0, 9, 5] = false :=
  ⟨IEEE802_3.matches_response_spec.1 requestFrame [0, 0, 0] (by decide),
   IEEE802_3.matches_response_spec.2.1 requestFrame (by decide) (by decide)
     (Or.inr ⟨[5, 5], rfl⟩),
   IEEE802_3.matches_response_spec.2.2 requestFrame
     [7, 8, 9, 10, 11, 12, 1, 2, 3, 4, 5, 6, 0, 9, 5] (by decide)⟩

/-- C1: for every buffer of at least 14 bytes (of bytes, i.e. values
below 256) with arbitrary trailing payload, constructing an IEEE802_3
frame from it via the buffer constructor and then serializing the
resulting chain into a buffer of exactly the original total size
reproduces the original 14 header bytes and the full trailing bytes
exactly — whether the registry recognized the trailing bytes as an inner
protocol (any registry whose produced PDUs serialize back to the bytes
they were parsed from) or left them as opaque payload. -/
theorem IEEE802_3.parse_serialize_round_trip (registry : Registry)
    (buffer : List Nat) (f : IEEE802_3)
    (hbytes : ∀ b ∈ buffer, b < 256)
    (hreg : ∀ d bs p, registry d bs = Option.some p →
      serializeP p = bs ∧ pduSizeP p = bs.length)
    (hok : IEEE802_3.fromBuffer registry buffer = Except.ok f) :
    f.serializeChain = buffer
    ∧ f.size = buffer.length
    ∧ f.write_serialization buffer.length = Option.some buffer := by
  unfold IEEE802_3.fromBuffer at hok
  by_cases h14 : buffer.length < 14
  · rw [if_pos h14] at hok
    simp at hok
  · rw [if_neg h14] at hok
    simp only [Except.ok.injEq] at hok
    subst hok
    have hlen : 14 ≤ buffer.length := Nat.le_of_not_lt h14
    have hd2 : 2 ≤ (buffer.drop 12).length := by
      simp only [List.length_drop]
      omega
    have hmem := getD_mem_two (buffer.drop 12) hd2
    have hhi : (buffer.drop 12).getD 0 0 < 256 :=
      hbytes _ (List.drop_subset 12 buffer hmem.1)
    have hlo : (buffer.drop 12).getD 1 0 < 256 :=
      hbytes _ (List.drop_subset 12 buffer hmem.2)
    have hinv := host_to_be_inv _ _ hhi hlo
    have hai := attach_inner_spec registry
      (Endian.be_to_host ((buffer.drop 12).getD 0 0) ((buffer.drop 12).getD 1 0))
      (buffer.drop 14) hreg
    have hser : IEEE802_3.serializeChain
        { _eth := { dst_mac := buffer.take 6
                  , src_mac := (buffer.drop 6).take 6
                  , len_hi := (buffer.drop 12).getD 0 0
                  , len_lo := (buffer.drop 12).getD 1 0 }
        , _iface := 0
        , inner_pdu := attach_inner registry
            (Endian.be_to_host ((buffer.drop 12).getD 0 0) ((buffer.drop 12).getD 1 0))
            (buffer.drop 14) } = buffer := by
      simp only [IEEE802_3.serializeChain, headerBytes, hinv.1, hinv.2, hai.1,
        List.append_assoc]
      rw [← take_two_getD (buffer.drop 12) hd2]
      exact split14 buffer
    have hsize : IEEE802_3.size
        { _eth := { dst_mac := buffer.take 6
                  , src_mac := (buffer.drop 6).take 6
                  , len_hi := (buffer.drop 12).getD 0 0
                  , len_lo := (buffer.drop 12).getD 1 0 }
        , _iface := 0
        , inner_pdu := attach_inner registry
            (Endian.be_to_host ((buffer.drop 12).getD 0 0) ((buffer.drop 12).getD 1 0))
            (buffer.drop 14) } = buffer.length := by
      simp only [IEEE802_3.size, hai.2, List.length_drop]
      omega
    refine ⟨hser, hsize, ?_⟩
    unfold IEEE802_3.write_serialization
    rw [hsize, if_neg (Nat.lt_irrefl buffer.length), hser]

/-- A concrete 16-byte buffer with two trailing bytes, used to
instantiate the round-trip statement. -/
def exampleBuffer : List Nat :=
  [1, 2, 3, 4, 5, 6, 7, 8, 9, 10, 11, 12, 0, 42, 100, 200]

/-- The frame the buffer constructor yields on `exampleBuffer` under the
registry that recognizes nothing. -/
def exampleParsed : IEEE802_3 :=
  IEEE802_3.mk ⟨[1, 2, 3, 4, 5, 6], [7, 8, 9, 10, 11, 12], 0, 42⟩ 0 (PDUv.raw [100, 200])

theorem IEEE802_3.parse_serialize_round_trip_witness :
    exampleParsed.serializeChain = exampleBuffer
    ∧ exampleParsed.size = exampleBuffer.length
    ∧ exampleParsed.write_serialization exampleBuffer.length
      = Option.some exampleBuffer :=
  IEEE802_3.parse_serialize_round_trip (fun _ _ => Option.none) exampleBuffer
    exampleParsed (by decide)
    (fun d bs p h => by simp at h)
    (by rfl)

lemma hlookup_lt : ∀ (mem : List (Nat × HNode)) (bound a : Nat) (n : HNode),
    memWF mem bound → hlookup mem a = Option.some n → a < bound := by
  intro mem
  induction mem with
  | nil =>
    intro bound a n _ h
    simp [hlookup] at h
  | cons e rest ih =>
    intro bound a n hwf h
    simp only [hlookup] at h
    by_cases hae : a = e.1
    · have he := hwf e (List.mem_cons_self e rest)
      omega
    · rw [if_neg hae] at h
      exact ih bound a n (fun x hx => hwf x (List.mem_cons_of_mem e hx)) h

lemma hlookup_setNode_ne : ∀ (mem : List (Nat × HNode)) (x : Nat) (n : HNode) (b : Nat),
    b ≠ x → hlookup (setNode mem x n) b = hlookup mem b := by
  intro mem x n
  induction mem with
  | nil =>
    intro b _
    rfl
  | cons e rest ih =>
    intro b hbx
    simp only [setNode, List.map_cons]
    by_cases hex : e.1 = x
    · rw [if_pos hex]
      simp only [hlookup]
      rw [if_neg hbx, if_neg (show ¬ b = e.1 by omega)]
      simpa [setNode] using ih b hbx
    · rw [if_neg hex]
      simp only [hlookup]
      by_cases hbe : b = e.1
      · rw [if_pos hbe, if_pos hbe]
      · rw [if_neg hbe, if_neg hbe]
        simpa [setNode] using ih b hbx

lemma readChain_mono : ∀ (fuel : Nat) (mem mem2 : List (Nat × HNode)) (bound : Nat),
    memWF mem bound →
    (∀ b, b < bound → hlookup mem2 b = hlookup mem b) →
    ∀ (a : Nat) (v : PDUv), readChain fuel mem a = Option.some v →
      readChain fuel mem2 a = Option.some v := by
  intro fuel
  induction fuel with
  | zero =>
    intro mem mem2 bound _ _ a v h
    simp [readChain] at h
  | succ fuel ih =>
    intro mem mem2 bound hwf hagree a v h
    cases hl : hlookup mem a with
    | none => simp [readChain, hl] at h
    | some node =>
      have ha : a < bound := hlookup_lt mem bound a node hwf hl
      have hl2 : hlookup mem2 a = Option.some node := by rw [hagree a ha, hl]
      cases node with
      | raw p =>
        simp only [readChain, hl] at h
        simp only [readChain, hl2]
        exact h
      | frame e i child =>
        cases child with
        | none =>
          simp only [readChain, hl] at h
          simp only [readChain, hl2]
          exact h
        | some c =>
          simp only [readChain, hl] at h
          simp only [readChain, hl2]
          cases hc : readChain fuel mem c with
          | none => rw [hc] at h; simp at h
          | some q =>
            rw [hc] at h
            rw [ih mem mem2 bound hwf hagree c q hc]
            exact h

lemma chainAddrs_congr : ∀ (fuel : Nat) (mem mem2 : List (Nat × HNode)) (bound : Nat),
    memWF mem bound →
    (∀ b, b < bound → hlookup mem2 b = hlookup mem b) →
    ∀ (a : Nat) (v : PDUv), readChain fuel mem a = Option.some v →
      chainAddrs fuel mem2 a = chainAddrs fuel mem a := by
  intro fuel
  induction fuel with
  | zero =>
    intro mem mem2 bound _ _ a v h
    simp [readChain] at h
  | succ fuel ih =>
    intro mem mem2 bound hwf hagree a v h
    cases hl : hlookup mem a with
    | none => simp [readChain, hl] at h
    | some node =>
      have ha : a < bound := hlookup_lt mem bound a node hwf hl
      have hl2 : hlookup mem2 a = Option.some node := by rw [hagree a ha, hl]
      cases node with
      | raw p => simp only [chainAddrs, hl, hl2]
      | frame e i child =>
        cases child with
        | none => simp only [chainAddrs, hl, hl2]
        | some c =>
          simp only [readChain, hl] at h
          simp only [chainAddrs, hl, hl2]
          cases hc : readChain fuel mem c with
          | none => rw [hc] at h; simp at h
          | some q =>
            rw [ih mem mem2 bound hwf hagree c q hc]

lemma chainAddrs_lt : ∀ (fuel : Nat) (mem : List (Nat × HNode)) (bound : Nat),
    memWF mem bound → ∀ (a x : Nat), x ∈ chainAddrs fuel mem a → x < bound := by
  intro fuel
  induction fuel with
  | zero =>
    intro mem bound _ a x hx
    simp [chainAddrs] at hx
  | succ fuel ih =>
    intro mem bound hwf a x hx
    rw [chainAddrs] at hx
    cases hl : hlookup mem a with
    | none => rw [hl] at hx; simp at hx
    | some node =>
      rw [hl] at hx
      have ha : a < bound := hlookup_lt mem bound a node hwf hl
      cases node with
      | raw p => simp at hx; omega
      | frame e i child =>
        cases child with
        | none => simp at hx; omega
        | some c =>
          simp only [List.mem_cons] at hx
          rcases hx with hx | hx
          · omega
          · exact ih mem bound hwf c x hx

/-- Well-formedness of a concrete node store is decidable. -/
instance memWF.dec (mem : List (Nat × HNode)) (bound : Nat) :
    Decidable (memWF mem bound) :=
  inferInstanceAs (Decidable (∀ e ∈ mem, e.1 < bound))

lemma cloneChain_spec : ∀ (fuel : Nat) (h : Heap) (a : Nat) (h1 : Heap) (a1 : Nat),
    memWF h.mem h.next →
    cloneChain fuel h a = Option.some (h1, a1) →
    memWF h1.mem h1.next
    ∧ h.next ≤ h1.next
    ∧ h.next ≤ a1 ∧ a1 < h1.next
    ∧ (∀ b, b < h.next → hlookup h1.mem b = hlookup h.mem b)
    ∧ (∃ v, readChain fuel h.mem a = Option.some v
        ∧ readChain fuel h1.mem a1 = Option.some v)
    ∧ (∀ x ∈ chainAddrs fuel h1.mem a1, h.next ≤ x) := by
  intro fuel
  induction fuel with
  | zero =>
    intro h a h1 a1 _ hc
    simp [cloneChain] at hc
  | succ fuel ih =>
    intro h a h1 a1 hwf hc
    cases hl : hlookup h.mem a with
    | none => simp [cloneChain, hl] at hc
    | some node =>
      cases node with
      | raw p =>
        simp only [cloneChain, hl, Option.some.injEq, Prod.mk.injEq] at hc
        obtain ⟨hh1, ha1⟩ := hc
        subst hh1
        subst ha1
        refine ⟨?_, ?_, ?_, ?_, ?_, ?_, ?_⟩
        · intro x hx
          rcases List.mem_cons.mp hx with rfl | hx'
          · exact Nat.lt_succ_self h.next
          · exact Nat.lt_succ_of_lt (hwf x hx')
        · exact Nat.le_succ h.next
        · exact Nat.le_refl h.next
        · exact Nat.lt_succ_self h.next
        · intro b hb
          simp only [hlookup]
          rw [if_neg (show ¬ b = h.next by omega)]
        · exact ⟨PDUv.raw p, by simp [readChain, hl], by simp [readChain, hlookup]⟩
        · intro x hx
          simp [chainAddrs, hlookup] at hx
          omega
      | frame e i child =>
        cases child with
        | none =>
          simp only [cloneChain, hl, Option.some.injEq, Prod.mk.injEq] at hc
          obtain ⟨hh1, ha1⟩ := hc
          subst hh1
          subst ha1
          refine ⟨?_, ?_, ?_, ?_, ?_, ?_, ?_⟩
          · intro x hx
            rcases List.mem_cons.mp hx with rfl | hx'
            · exact Nat.lt_succ_self h.next
            · exact Nat.lt_succ_of_lt (hwf x hx')
          · exact Nat.le_succ h.next
          · exact Nat.le_refl h.next
          · exact Nat.lt_succ_self h.next
          · intro b hb
            simp only [hlookup]
            rw [if_neg (show ¬ b = h.next by omega)]
          · exact ⟨PDUv.ieee e i PDUv.nil, by simp [readChain, hl],
              by simp [readChain, hlookup]⟩
          · intro x hx
            simp [chainAddrs, hlookup] at hx
            omega
        | some c =>
          cases hcc : cloneChain fuel h c with
          | none => simp [cloneChain, hl, hcc] at hc
          | some pr =>
            obtain ⟨hmid, c1⟩ := pr
            simp only [cloneChain, hl, hcc, Option.some.injEq, Prod.mk.injEq] at hc
            obtain ⟨hh1, ha1⟩ := hc
            subst hh1
            subst ha1
            obtain ⟨ihwf, ihmono, ihlo, ihhi, ihpres, ⟨q, ihro, ihrn⟩, ihaddr⟩ :=
              ih h c hmid c1 hwf hcc
            have hagree1 : ∀ b, b < hmid.next →
                hlookup ((hmid.next, HNode.frame e i (Option.some c1)) :: hmid.mem) b
                  = hlookup hmid.mem b := by
              intro b hb
              simp only [hlookup]
              rw [if_neg (show ¬ b = hmid.next by omega)]
            have hlk : hlookup ((hmid.next, HNode.frame e i (Option.some c1)) :: hmid.mem)
                hmid.next = Option.some (HNode.frame e i (Option.some c1)) := by
              simp [hlookup]
            refine ⟨?_, ?_, ?_, ?_, ?_, ?_, ?_⟩
            · intro x hx
              rcases List.mem_cons.mp hx with rfl | hx'
              · exact Nat.lt_succ_self hmid.next
              · exact Nat.lt_succ_of_lt (ihwf x hx')
            · exact Nat.le_succ_of_le ihmono
            · exact ihmono
            · exact Nat.lt_succ_self hmid.next
            · intro b hb
              rw [hagree1 b (by omega), ihpres b hb]
            · refine ⟨PDUv.ieee e i q, ?_, ?_⟩
              · simp only [readChain, hl, ihro]
              · have hrn2 : readChain fuel
                    ((hmid.next, HNode.frame e i (Option.some c1)) :: hmid.mem) c1
                    = Option.some q :=
                  readChain_mono fuel hmid.mem _ hmid.next ihwf hagree1 c1 q ihrn
                simp only [readChain, hlk, hrn2]
            · intro x hx
              simp only [chainAddrs, hlk] at hx
              have hca : chainAddrs fuel
                  ((hmid.next, HNode.frame e i (Option.some c1)) :: hmid.mem) c1
                  = chainAddrs fuel hmid.mem c1 :=
                chainAddrs_congr fuel hmid.mem _ hmid.next ihwf hagree1 c1 q ihrn
              rw [hca] at hx
              rcases List.mem_cons.mp hx with rfl | hx'
              · omega
              · exact ihaddr x hx'

/-- C4: for every heap-allocated IEEE802_3 node, `clone()` produces a
duplicate whose read-back value — the observable fields (destination,
source, length bytes, interface) of the node and of every node of its
owned inner chain — equals the original's, and whose chain is a
recursively deep-copied, structurally independent chain: every address of
the clone's chain is a freshly allocated one, every address of the
original's chain is an old one (so the two chains share no node), and
overwriting any freshly allocated node — mutating the clone's inner PDU —
never changes the value read back from the original. -/
theorem IEEE802_3.clone_deep_copy (fuel : Nat) (h : Heap) (a : Nat)
    (h1 : Heap) (a1 : Nat)
    (hwf : memWF h.mem h.next)
    (hc : cloneChain fuel h a = Option.some (h1, a1)) :
    readChain fuel h1.mem a1 = readChain fuel h.mem a
    ∧ (readChain fuel h.mem a).isSome = true
    ∧ (∀ x ∈ chainAddrs fuel h1.mem a1, h.next ≤ x)
    ∧ (∀ x ∈ chainAddrs fuel h.mem a, x < h.next)
    ∧ (∀ x n, h.next ≤ x →
        readChain fuel (setNode h1.mem x n) a = readChain fuel h.mem a) := by
  obtain ⟨hwf1, hmono, hlo, hhi, hpres, ⟨v, hro, hrn⟩, haddr⟩ :=
    cloneChain_spec fuel h a h1 a1 hwf hc
  refine ⟨?_, ?_, haddr, ?_, ?_⟩
  · rw [hro, hrn]
  · rw [hro]
    rfl
  · intro x hx
    exact chainAddrs_lt fuel h.mem h.next hwf a x hx
  · intro x n hx
    have hagree : ∀ b, b < h.next →
        hlookup (setNode h1.mem x n) b = hlookup h.mem b := by
      intro b hb
      rw [hlookup_setNode_ne h1.mem x n b (by omega), hpres b hb]
    rw [hro]
    exact readChain_mono fuel h.mem (setNode h1.mem x n) h.next hwf hagree a v hro

/-- A concrete two-node heap: a frame at address 0 owning a raw payload
node at address 1. -/
def exampleHeap : Heap :=
  ⟨[(0, HNode.frame ⟨[1, 2, 3, 4, 5, 6], [7, 8, 9, 10, 11, 12], 0, 9⟩ 4 (Option.some 1)),
    (1, HNode.raw [7, 7])], 2⟩

/-- The heap after cloning the chain rooted at address 0 of
`exampleHeap`: the payload copy at the fresh address 2, the frame copy at
the fresh address 3. -/
def exampleClonedHeap : Heap :=
  ⟨[(3, HNode.frame ⟨[1, 2, 3, 4, 5, 6], [7, 8, 9, 10, 11, 12], 0, 9⟩ 4 (Option.some 2)),
    (2, HNode.raw [7, 7]),
    (0, HNode.frame ⟨[1, 2, 3, 4, 5, 6], [7, 8, 9, 10, 11, 12], 0, 9⟩ 4 (Option.some 1)),
    (1, HNode.raw [7, 7])], 4⟩

theorem IEEE802_3.clone_deep_copy_witness :
    readChain 2 exampleClonedHeap.mem 3 = readChain 2 exampleHeap.mem 0
    ∧ (readChain 2 exampleHeap.mem 0).isSome = true
    ∧ (∀ x ∈ chainAddrs 2 exampleClonedHeap.mem 3, exampleHeap.next ≤ x)
    ∧ (∀ x ∈ chainAddrs 2 exampleHeap.mem 0, x < exampleHeap.next)
    ∧ readChain 2 (setNode exampleClonedHeap.mem 2 (HNode.raw [9, 9])) 0
      = readChain 2 exampleHeap.mem 0 := by
  have H := IEEE802_3.clone_deep_copy 2 exampleHeap 0 exampleClonedHeap 3
    (by decide) (by rfl)
  exact ⟨H.1, H.2.1, H.2.2.1, H.2.2.2.1, H.2.2.2.2 2 (HNode.raw [9, 9]) (by decide)⟩
